import Mathlib

/-!
# openrvs-stats: a verification development of `main.go`

The poller of `main.go` is embedded function by function:

* `getHostPorts` (discovery: the listing body is cut into lines and fields),
* `populateBeaconData` (one status report is mapped to a `ServerInfo`),
* the goroutine body of `pollServers` (fetch, filter, lock, scan, append),
* one iteration of the `pollServers` loop and a finite prefix of the loop.

Go values are embedded as follows.  A `string` or `[]byte` is a list of bytes.
An `int` is an integer (64 bit where a range matters).  A function returning
`(T, error)` returns an `Outcome T`, which also records a run-time panic, so
that an unchecked slice index is visible in the model.  Network calls and the
tables of imported packages are parameters.
-/

set_option autoImplicit false

namespace OpenRVSStats

/-! ## Go values -/

/-- A Go `string` or `[]byte`: a sequence of bytes. -/
abbrev GoString := List UInt8

/-- The bytes of a Go string literal, the UTF-8 encoding of its text. -/
def lit (s : String) : GoString := s.toList.flatMap String.utf8EncodeChar

/-- A Go `error` value, kept as its message. -/
abbrev GoError := String

/-- A run-time panic of the Go program. -/
inductive Panic where
  /-- The panic `index out of range [index] with length length`. -/
  | indexOutOfRange (index length : Nat)
  deriving DecidableEq, Repr

/-- The result of a Go function of type `(T, error)` that may also panic. -/
inductive Outcome (α : Type) where
  /-- The function returned `(val, nil)`. -/
  | ok (val : α)
  /-- The function returned a non-nil error. -/
  | error (err : GoError)
  /-- The function did not return: it panicked. -/
  | panic (p : Panic)
  deriving DecidableEq, Repr

/-- The slice index expression `xs[i]`, which panics out of range. -/
def index {α : Type} (xs : List α) (i : Nat) : Outcome α :=
  match xs[i]? with
  | some x => .ok x
  | none => .panic (.indexOutOfRange i xs.length)

/-- The map index expression `m[k]` on a `map[string]string`: the value of the
key, or the empty string when the key is absent. -/
def mapIndex (m : List (GoString × GoString)) (k : GoString) : GoString :=
  match m.lookup k with
  | some v => v
  | none => []

/-- The loop `for i := start; i < start + count; i++ { body }` over a state
`σ`; a body that fails ends the loop with that failure. -/
def forLoop {σ : Type} (body : Nat → σ → Outcome σ) : Nat → Nat → σ → Outcome σ
  | 0, _, s => .ok s
  | count + 1, i, s =>
    match body i s with
    | .ok s1 => forLoop body count (i + 1) s1
    | .error err => .error err
    | .panic p => .panic p

/-- The least value of a 64-bit Go `int`. -/
def minInt : Int := -(2 : Int) ^ 63

/-- The greatest value of a 64-bit Go `int`. -/
def maxInt : Int := (2 : Int) ^ 63 - 1

/-- The wrap-around of 64-bit `int` arithmetic. -/
def wrapInt (v : Int) : Int := (v + 2 ^ 63) % 2 ^ 64 - 2 ^ 63

/-! ## Data model (`main.go`, lines 197 to 256) -/

/-- Struct `Input`: one discovered target. -/
structure Input where
  IP : GoString
  Port : Int
  deriving DecidableEq, Repr

/-- Struct `Player`. -/
structure Player where
  Name : GoString := []
  Kills : Int := 0
  Time : GoString := []
  deriving DecidableEq, Repr

/-- Struct `Map`: one rotation entry. -/
structure Map where
  Name : GoString := []
  Mode : GoString := []
  deriving DecidableEq, Repr

/-- Struct `PVPSettings`; the defaults are Go zero values. -/
structure PVPSettings where
  AutoTeamBalance : Bool := false
  BombTimer : Int := 0
  FriendlyFire : Bool := false
  RoundsPerMatch : Int := 0
  TimePerRound : Int := 0
  TimeBetweenRounds : Int := 0
  deriving DecidableEq, Repr

/-- Struct `CoopSettings`; the defaults are Go zero values. -/
structure CoopSettings where
  AIBackup : Bool := false
  FriendlyFire : Bool := false
  TerroristCount : Int := 0
  RotateMapOnSuccess : Bool := false
  RoundsPerMatch : Int := 0
  TimePerRound : Int := 0
  TimeBetweenRounds : Int := 0
  deriving DecidableEq, Repr

/-- Struct `ServerInfo`; the defaults are Go zero values (a nil slice is the
empty list). -/
structure ServerInfo where
  ServerName : GoString := []
  CurrentPlayers : Int := 0
  MaxPlayers : Int := 0
  IP : GoString := []
  Port : Int := 0
  MapName : GoString := []
  GameMode : GoString := []
  MOTD : GoString := []
  Players : List Player := []
  Maps : List Map := []
  PVPSettings : PVPSettings := {}
  CoopSettings : CoopSettings := {}
  deriving DecidableEq, Repr

/-- The fields of the imported `beacon.ServerReport` that `populateBeaconData`
reads, with the types its assignments give them. -/
structure Report where
  ServerName : GoString := []
  NumPlayers : Int := 0
  MaxPlayers : Int := 0
  IPAddress : GoString := []
  Port : Int := 0
  CurrentMap : GoString := []
  CurrentMode : GoString := []
  MOTD : GoString := []
  ConnectedPlayerNames : List GoString := []
  ConnectedPlayerKills : List Int := []
  ConnectedPlayerTimes : List GoString := []
  MapRotation : List GoString := []
  ModeRotation : List GoString := []
  AutoTeamBalance : Bool := false
  BombTimer : Int := 0
  FriendlyFire : Bool := false
  RoundsPerMatch : Int := 0
  TimePerRound : Int := 0
  TimeBetweenRounds : Int := 0
  AIBackup : Bool := false
  NumTerrorists : Int := 0
  RotateMapOnSuccess : Bool := false
  deriving DecidableEq, Repr

/-- Table `FriendlyGameModes`: raw mode identifier to display name. -/
def FriendlyGameModes : List (GoString × GoString) :=
  [ (lit "RGM_BombAdvMode", lit "Bomb"),
    (lit "RGM_DeathmatchMode", lit "Survival"),
    (lit "RGM_EscortAdvMode", lit "Escort the Pilot"),
    (lit "RGM_HostageRescueAdvMode", lit "Hostage"),
    (lit "RGM_HostageRescueCoopMode", lit "Hostage Rescue"),
    (lit "RGM_MissionMode", lit "Mission"),
    (lit "RGM_TeamDeathmatchMode", lit "Team Survival"),
    (lit "RGM_TerroristHuntCoopMode", lit "Terrorist Hunt") ]

/-! ## `getHostPorts` (lines 108 to 132) -/

/-- Library function `bytes.TrimSuffix`: `s` without the trailing `suffix`,
or `s` itself when it does not end in `suffix`. -/
def TrimSuffix (s suffix : GoString) : GoString :=
  if suffix.isSuffixOf s then s.take (s.length - suffix.length) else s

/-- Library function `bytes.Split` for a separator of one byte: the pieces of
`s` between the occurrences of `sep`; a slice without `sep` (the empty one
too) gives the single piece `s`. -/
def Split (s : GoString) (sep : UInt8) : List GoString :=
  match s with
  | [] => [[]]
  | c :: rest =>
    if c = sep then [] :: Split rest sep
    else
      match Split rest sep with
      | [] => [[c]]
      | piece :: pieces => (c :: piece) :: pieces

/-- The value of a run of decimal digits, read after the digits worth `acc`;
`none` when a byte is not a digit. -/
def digitsValue : GoString → Nat → Option Nat
  | [], acc => some acc
  | c :: cs, acc =>
    if 48 ≤ c.toNat ∧ c.toNat ≤ 57 then digitsValue cs (acc * 10 + (c.toNat - 48))
    else none

/-- The value of the digits of a number with the given sign: the part of
`strconv.Atoi` after the sign.  There must be one digit or more, only digits,
and the value must fit a 64-bit `int`. -/
def signedValue (negative : Bool) (digits : GoString) : Outcome Int :=
  if digits = [] then .error "invalid syntax"
  else
    match digitsValue digits 0 with
    | none => .error "invalid syntax"
    | some n =>
      let v : Int := if negative then -(n : Int) else (n : Int)
      if minInt ≤ v ∧ v ≤ maxInt then .ok v else .error "value out of range"

/-- Library function `strconv.Atoi`, from its documented behaviour: an optional
sign `+` or `-`, then one or more decimal digits, and a value that fits a
64-bit `int`; anything else is an error. -/
def Atoi (s : GoString) : Outcome Int :=
  match s with
  | [] => .error "invalid syntax"
  | c :: rest =>
    if c = 45 then signedValue true rest
    else if c = 43 then signedValue false rest
    else signedValue false s

/-- An observable effect of the poller, in program order. -/
inductive Effect where
  /-- Call `http.Get` on the listing service. -/
  | httpGet
  /-- Call `log.Println` with this text. -/
  | log (msg : String)
  /-- Call `time.Sleep` for this many seconds. -/
  | sleep (seconds : Nat)
  deriving DecidableEq, Repr

/-- State of the loop of `getHostPorts`: the targets appended so far and the
lines logged so far. -/
structure ParseState where
  inputs : List Input := []
  logged : List Effect := []
  deriving DecidableEq, Repr

/-- Body of the loop of `getHostPorts` (lines 121 to 129) at index `i`. -/
def hostPortsBody (lines : List GoString) (i : Nat) (st : ParseState) : Outcome ParseState :=
  match index lines i with
  | .panic p => .panic p
  | .error err => .error err
  | .ok line =>
    let fields := Split line 44
    match index fields 1 with
    | .panic p => .panic p
    | .error err => .error err
    | .ok host =>
      match index fields 2 with
      | .panic p => .panic p
      | .error err => .error err
      | .ok portBytes =>
        match Atoi portBytes with
        | .panic p => .panic p
        | .error err => .ok { st with logged := st.logged ++ [.log ("atoi error: " ++ err)] }
        | .ok port => .ok { st with inputs := st.inputs ++ [{ IP := host, Port := port }] }

/-- The record-parsing part of `getHostPorts` (lines 119 to 131) on the body
`b` of the response. -/
def parseHostPorts (b : GoString) : Outcome ParseState :=
  let lines := Split (TrimSuffix b [10]) 10
  forLoop (hostPortsBody lines) (lines.length - 1) 1 {}

/-- Function `getHostPorts`; `response` is what `http.Get` followed by
`ioutil.ReadAll` gives: the body, or the error of either call. -/
def getHostPorts (response : Outcome GoString) : Outcome ParseState :=
  match response with
  | .panic p => .panic p
  | .error err => .error err
  | .ok b => parseHostPorts b

/-! ## `populateBeaconData` (lines 134 to 195) -/

/-- Body of the player loop (lines 151 to 155) at index `i`: the three
parallel lists of the report are indexed at `i` without a length check. -/
def playersBody (report : Report) (i : Nat) (players : List Player) : Outcome (List Player) :=
  match index report.ConnectedPlayerNames i with
  | .panic p => .panic p
  | .error err => .error err
  | .ok name =>
    match index report.ConnectedPlayerKills i with
    | .panic p => .panic p
    | .error err => .error err
    | .ok kills =>
      match index report.ConnectedPlayerTimes i with
      | .panic p => .panic p
      | .error err => .error err
      | .ok time => .ok (players ++ [{ Name := name, Kills := kills, Time := time }])

/-- The player loop (lines 149 to 156). -/
def buildPlayers (report : Report) : Outcome (List Player) :=
  forLoop (playersBody report) report.ConnectedPlayerNames.length 0 []

/-- The bound of the rotation loop (lines 159 to 164). -/
def limiter (report : Report) : Nat :=
  if report.MapRotation.length ≥ report.ModeRotation.length then report.ModeRotation.length
  else report.MapRotation.length

/-- Body of the rotation loop (lines 166 to 169) at index `i`. -/
def mapsBody (report : Report) (i : Nat) (maps : List Map) : Outcome (List Map) :=
  match index report.MapRotation i with
  | .panic p => .panic p
  | .error err => .error err
  | .ok name =>
    match index report.ModeRotation i with
    | .panic p => .panic p
    | .error err => .error err
    | .ok mode => .ok (maps ++ [{ Name := name, Mode := mapIndex FriendlyGameModes mode }])

/-- The rotation loop (lines 158 to 170). -/
def buildMaps (report : Report) : Outcome (List Map) :=
  forLoop (mapsBody report) (limiter report) 0 []

/-- The mode settings (lines 172 to 193) written into `info`; `GameTypes` is
the table `registry.GameTypes` of the imported registry package. -/
def applySettings (GameTypes : List (GoString × GoString)) (report : Report)
    (info : ServerInfo) : ServerInfo :=
  if mapIndex GameTypes report.CurrentMode = lit "adv" then
    let pvp : PVPSettings := {}
    let pvp := { pvp with AutoTeamBalance := report.AutoTeamBalance }
    let pvp := if report.CurrentMode = lit "Bomb" then { pvp with BombTimer := report.BombTimer } else pvp
    let pvp := { pvp with FriendlyFire := report.FriendlyFire }
    let pvp := { pvp with RoundsPerMatch := report.RoundsPerMatch }
    let pvp := { pvp with TimePerRound := report.TimePerRound }
    let pvp := { pvp with TimeBetweenRounds := report.TimeBetweenRounds }
    { info with PVPSettings := pvp }
  else
    let coop : CoopSettings := {}
    let coop := { coop with AIBackup := report.AIBackup }
    let coop := { coop with FriendlyFire := report.FriendlyFire }
    let coop := { coop with TerroristCount := report.NumTerrorists }
    let coop := { coop with RotateMapOnSuccess := report.RotateMapOnSuccess }
    let coop := { coop with RoundsPerMatch := report.RoundsPerMatch }
    let coop := { coop with TimePerRound := report.TimePerRound }
    let coop := { coop with TimeBetweenRounds := report.TimeBetweenRounds }
    { info with CoopSettings := coop }

/-- The mapping of a report to a `ServerInfo` (lines 139 to 194). -/
def mapReport (GameTypes : List (GoString × GoString)) (report : Report) : Outcome ServerInfo :=
  let info : ServerInfo :=
    { ServerName := report.ServerName
      CurrentPlayers := report.NumPlayers
      MaxPlayers := report.MaxPlayers
      IP := report.IPAddress
      Port := report.Port
      MapName := report.CurrentMap
      GameMode := mapIndex FriendlyGameModes report.CurrentMode
      MOTD := report.MOTD }
  match buildPlayers report with
  | .panic p => .panic p
  | .error err => .error err
  | .ok players =>
    let info := { info with Players := players }
    match buildMaps report with
    | .panic p => .panic p
    | .error err => .error err
    | .ok maps =>
      let info := { info with Maps := maps }
      .ok (applySettings GameTypes report info)

/-- Function `populateBeaconData`; `GetServerReport` is the status query of
the imported beacon package (its fixed timeout is left out), `GameTypes` the
table of the imported registry package. -/
def populateBeaconData (GetServerReport : GoString → Int → Outcome Report)
    (GameTypes : List (GoString × GoString)) (input : Input) : Outcome ServerInfo :=
  match GetServerReport input.IP (wrapInt (input.Port + 1000)) with
  | .panic p => .panic p
  | .error err => .error err
  | .ok report => mapReport GameTypes report

/-! ## `pollServers` (lines 65 to 106) -/

/-- What the goroutines of one cycle share: the global `Servers`, the
`lock` of the cycle (held or free), the counter of the wait group `wg`, and
the effects so far. -/
structure Shared where
  Servers : List ServerInfo := []
  lockHeld : Bool := false
  wg : Int := 0
  trace : List Effect := []
  deriving DecidableEq, Repr

/-- How one goroutine ends. -/
inductive Exit where
  /-- It ran to a `return` or to the end of its body. -/
  | returned
  /-- It waits in `lock.Lock()` for a lock that is held. -/
  | blocked
  /-- It panicked, which ends the process. -/
  | panicked (p : Panic)
  deriving DecidableEq, Repr

/-- The scan of lines 90 to 95: whether the `range` loop over `Servers`
reaches an entry with the `IP` and the `Port` of `info`. -/
def scanServers (info : ServerInfo) : List ServerInfo → Bool
  | [] => false
  | s :: rest => if info.IP = s.IP ∧ info.Port = s.Port then true else scanServers info rest

/-- The merge step (lines 89 to 98) for a fetched `info`.  A goroutine runs
it to its end before the next one takes the lock, so a lock found held stays
held: its holder has returned. -/
def mergeStep (info : ServerInfo) (st : Shared) : Exit × Shared :=
  if st.lockHeld then (.blocked, st)
  else
    let st : Shared := { st with lockHeld := true }
    if scanServers info st.Servers then
      (.returned, { st with wg := st.wg - 1 })
    else
      let st : Shared := { st with Servers := st.Servers ++ [info] }
      let st : Shared := { st with lockHeld := false }
      (.returned, { st with wg := st.wg - 1 })

/-- The goroutine body (lines 78 to 99), the unit of work of one target;
`fetched` is what `populateBeaconData` gave for the target. -/
def unitOfWork (fetched : Outcome ServerInfo) (st : Shared) : Exit × Shared :=
  match fetched with
  | .panic p => (.panicked p, st)
  | .error err =>
    let st : Shared := { st with trace := st.trace ++ [Effect.log ("beacon error: " ++ err)] }
    (.returned, { st with wg := st.wg - 1 })
  | .ok info =>
    if info.CurrentPlayers = 0 then (.returned, { st with wg := st.wg - 1 })
    else mergeStep info st

/-- What the environment answers during one iteration of the loop. -/
structure World where
  /-- The answer of the listing service to `getHostPorts`. -/
  listing : Outcome GoString
  /-- The status query of the beacon package. -/
  GetServerReport : GoString → Int → Outcome Report
  /-- The table `registry.GameTypes`. -/
  GameTypes : List (GoString × GoString)

/-- How one iteration of the loop ends. -/
inductive IterationEnd where
  /-- The loop goes on with its next iteration. -/
  | next
  /-- The iteration waits for ever in `wg.Wait()`. -/
  | deadlock
  /-- A panic ended the process. -/
  | crashed (p : Panic)
  deriving DecidableEq, Repr

/-- The fan-out of lines 75 to 101, one goroutine after the other in the
order of `inputs` (one of the schedules the program allows). -/
def spawnAll (w : World) : List Input → Shared → Option Panic × Shared
  | [], st => (none, st)
  | input :: rest, st =>
    let st : Shared := { st with wg := st.wg + 1 }
    match unitOfWork (populateBeaconData w.GetServerReport w.GameTypes input) st with
    | (.panicked p, st1) => (some p, st1)
    | (_, st1) => spawnAll w rest st1

/-- One iteration of the loop of `pollServers` (lines 67 to 104) from the
store `servers`: how it ends, the store after it, its effects in order. -/
def pollIteration (w : World) (servers : List ServerInfo) :
    IterationEnd × List ServerInfo × List Effect :=
  match getHostPorts w.listing with
  | .panic p => (.crashed p, servers, [.httpGet])
  | .error err => (.next, servers, [.httpGet, .log err])
  | .ok parsed =>
    let st : Shared := { Servers := servers, trace := Effect.httpGet :: parsed.logged }
    match spawnAll w parsed.inputs st with
    | (some p, st1) => (.crashed p, st1.Servers, st1.trace)
    | (none, st1) =>
      if st1.wg = 0 then
        (.next, st1.Servers, st1.trace ++ [.log "server info updated", .sleep 30])
      else (.deadlock, st1.Servers, st1.trace)

/-- The loop of `pollServers` for as many iterations as `worlds` is long, or
until the process stops: the final store and the effects in order. -/
def pollServers : List World → List ServerInfo → List ServerInfo × List Effect
  | [], servers => (servers, [])
  | w :: rest, servers =>
    match pollIteration w servers with
    | (.next, servers1, effects) =>
      let r := pollServers rest servers1
      (r.1, effects ++ r.2)
    | (_, servers1, effects) => (servers1, effects)

/-- No two entries of the store have the same `IP` and the same `Port`. -/
def DistinctKeys (servers : List ServerInfo) : Prop :=
  servers.Pairwise (fun a b => ¬ (a.IP = b.IP ∧ a.Port = b.Port))

instance (servers : List ServerInfo) : Decidable (DistinctKeys servers) := by
  unfold DistinctKeys; infer_instance

/-- The stores the program can reach: the empty store it starts with, and the
store after a unit of work run from a reachable store, whatever the lock, the
wait group and the fetched result are. -/
inductive Reachable : List ServerInfo → Prop where
  | init : Reachable []
  | step (st : Shared) (fetched : Outcome ServerInfo) :
      Reachable st.Servers → Reachable (unitOfWork fetched st).2.Servers

/-! ## Specification-side definitions and example data -/

/-- A stored entry used in the examples: three players on `10.0.0.1:7777`. -/
def storedEntry : ServerInfo :=
  { ServerName := lit "Alpha", CurrentPlayers := 3, MaxPlayers := 8, IP := lit "10.0.0.1",
    Port := 7777, MapName := lit "Garage", GameMode := lit "Survival", MOTD := lit "hello" }

/-- A later fetch for the target of `storedEntry`: same `IP` and `Port`, every
other field different. -/
def refetchedEntry : ServerInfo :=
  { ServerName := lit "Beta", CurrentPlayers := 5, MaxPlayers := 16, IP := lit "10.0.0.1",
    Port := 7777, MapName := lit "Bank", GameMode := lit "Bomb", MOTD := lit "bye",
    Players := [{ Name := lit "p", Kills := 2, Time := lit "1:00" }],
    Maps := [{ Name := lit "Bank", Mode := lit "Bomb" }],
    PVPSettings := { FriendlyFire := true, RoundsPerMatch := 5 },
    CoopSettings := { AIBackup := true, TerroristCount := 9 } }

/-- A fetch for another target, `10.0.0.2:7777`, with one player. -/
def otherEntry : ServerInfo :=
  { ServerName := lit "Gamma", CurrentPlayers := 1, IP := lit "10.0.0.2", Port := 7777 }

/-- What the loop body of `getHostPorts` makes of one line whose indexing
succeeds, as a function of the line: the target of `fields[1]` and of the
`strconv.Atoi` of `fields[2]`, or none when `Atoi` fails. -/
def lineTarget (line : GoString) : Option Input :=
  match (Split line 44)[1]?, (Split line 44)[2]? with
  | some host, some portField =>
    match Atoi portField with
    | .ok port => some { IP := host, Port := port }
    | _ => none
  | _, _ => none

/-- What the loop of `getHostPorts` appends for a body `b`: `lineTarget` of
each line after the first, in order. -/
def listedTargets (b : GoString) : List Input :=
  ((Split (TrimSuffix b [10]) 10).drop 1).filterMap lineTarget

/-- The rotation of a report, after the words of the specification: the map
list and the mode list paired by position, as long as the shorter of them,
each mode under its display name. -/
def rotationPairs (report : Report) : List Map :=
  List.zipWith (fun name mode => { Name := name, Mode := mapIndex FriendlyGameModes mode })
    report.MapRotation report.ModeRotation

/-- A report with three rotation maps and two rotation modes. -/
def unevenRotationReport : Report :=
  { NumPlayers := 2
    CurrentMode := lit "RGM_MissionMode"
    MapRotation := [lit "Garage", lit "Bank", lit "Alpines"]
    ModeRotation := [lit "RGM_MissionMode", lit "RGM_TerroristHuntCoopMode"] }

/-- A report with one connected player name and no kill count for it. -/
def shortKillsReport : Report :=
  { NumPlayers := 1
    IPAddress := lit "10.0.0.1"
    Port := 7777
    ConnectedPlayerNames := [lit "alice"]
    ConnectedPlayerKills := []
    ConnectedPlayerTimes := [lit "0:10"] }

/-- A classifier table in the place of `registry.GameTypes`: the modes played
among players are `adv`, the others `coop`. -/
def sampleGameTypes : List (GoString × GoString) :=
  [ (lit "RGM_BombAdvMode", lit "adv"),
    (lit "RGM_DeathmatchMode", lit "adv"),
    (lit "RGM_EscortAdvMode", lit "adv"),
    (lit "RGM_HostageRescueAdvMode", lit "adv"),
    (lit "RGM_HostageRescueCoopMode", lit "coop"),
    (lit "RGM_MissionMode", lit "coop"),
    (lit "RGM_TeamDeathmatchMode", lit "adv"),
    (lit "RGM_TerroristHuntCoopMode", lit "coop") ]

/-- A report of a server in the bomb mode with a bomb timer of 45. -/
def bombReport : Report :=
  { ServerName := lit "Alpha"
    NumPlayers := 4
    MaxPlayers := 8
    IPAddress := lit "10.0.0.1"
    Port := 7777
    CurrentMap := lit "Bank"
    CurrentMode := lit "RGM_BombAdvMode"
    AutoTeamBalance := true
    BombTimer := 45
    RoundsPerMatch := 10
    TimePerRound := 240
    TimeBetweenRounds := 30 }

/-- An iteration in which the listing service cannot be reached. -/
def failingWorld : World :=
  { listing := .error "connection refused"
    GetServerReport := fun _ _ => .error "i/o timeout"
    GameTypes := sampleGameTypes }

/-- An iteration in which the listing has a header and no record. -/
def emptyListingWorld : World :=
  { listing := .ok (lit "header\n")
    GetServerReport := fun _ _ => .error "i/o timeout"
    GameTypes := sampleGameTypes }

/-- An iteration in which the one listed target answers `shortKillsReport`. -/
def shortKillsWorld : World :=
  { listing := .ok (lit "header\nsrv1,10.0.0.1,7777\n")
    GetServerReport := fun _ _ => .ok shortKillsReport
    GameTypes := sampleGameTypes }

/-- An iteration in which the listing names `10.0.0.1:7777` twice and then
`10.0.0.2:7777`, and every target reports itself with one player. -/
def duplicateWorld : World :=
  { listing := .ok (lit "header\nsrv1,10.0.0.1,7777\nsrv1,10.0.0.1,7777\nsrv2,10.0.0.2,7777\n")
    GetServerReport := fun ip port => .ok { NumPlayers := 1, IPAddress := ip, Port := port - 1000 }
    GameTypes := sampleGameTypes }

/-- The pieces joined with the byte `sep` between one and the next. -/
def joinWith (sep : UInt8) : List GoString → GoString
  | [] => []
  | [piece] => piece
  | piece :: next :: rest => piece ++ sep :: joinWith sep (next :: rest)

/-- The ten decimal digits in the order of their values. -/
def decimalDigits : GoString := lit "0123456789"

/-- Whether a byte is a decimal digit. -/
def isDecimalDigit (c : UInt8) : Bool := decimalDigits.contains c

/-- The value of a decimal digit: its place among the ten digits. -/
def digitValue (c : UInt8) : Nat := decimalDigits.indexOf c

/-- The number that a run of decimal digits writes, most significant digit
first. -/
def decimalValue (ds : GoString) : Nat := Nat.ofDigits 10 (ds.reverse.map digitValue)

/-- The number an unsigned decimal numeral writes: one digit or more, digits
only. -/
def unsignedDecimal? (ds : GoString) : Option Nat :=
  if ds ≠ [] ∧ ds.all isDecimalDigit = true then some (decimalValue ds) else none

/-- The integer a decimal numeral writes: an unsigned decimal numeral, or one
after a minus sign (byte 45) or a plus sign (byte 43). -/
def decimalInt? (s : GoString) : Option Int :=
  match s with
  | [] => none
  | c :: rest =>
    if c = 45 then (unsignedDecimal? rest).map (fun n : Nat => -(n : Int))
    else if c = 43 then (unsignedDecimal? rest).map (fun n : Nat => (n : Int))
    else (unsignedDecimal? s).map (fun n : Nat => (n : Int))

/-- The target a listing record stands for: the second field as host and the
third as port, when the third field is a decimal numeral whose integer fits a
64-bit `int`; no target otherwise. -/
def recordTarget (fields : List GoString) : Option Input :=
  match fields with
  | _ :: host :: portField :: _ =>
    match decimalInt? portField with
    | some port => if minInt ≤ port ∧ port ≤ maxInt then some { IP := host, Port := port } else none
    | none => none
  | _ => none

/-- The listing body made of a header line and of records, each a list of
fields: the fields of a record joined by commas, the lines joined by newlines,
with or without one newline at the end. -/
def listingBody (header : GoString) (records : List (List GoString)) (trailing : Bool) :
    GoString :=
  joinWith 10 (header :: records.map (joinWith 44)) ++ (if trailing then [10] else [])

/-! ## Theorems -/

theorem scanServers_eq_false {info : ServerInfo} {servers : List ServerInfo} :
    scanServers info servers = false ↔
      ∀ s ∈ servers, ¬ (info.IP = s.IP ∧ info.Port = s.Port) := by
  induction servers with
  | nil => simp [scanServers]
  | cons s rest ih =>
    by_cases h : info.IP = s.IP ∧ info.Port = s.Port
    · simp [scanServers, h]
    · simp only [scanServers, h, if_false, ih, List.mem_cons, forall_eq_or_imp, not_false_eq_true,
        true_and]

theorem scanServers_eq_true {info : ServerInfo} {servers : List ServerInfo} :
    scanServers info servers = true ↔
      ∃ s ∈ servers, info.IP = s.IP ∧ info.Port = s.Port := by
  rw [← Bool.not_eq_false, scanServers_eq_false]
  push_neg
  rfl

theorem mergeStep_servers (info : ServerInfo) (st : Shared) :
    (mergeStep info st).2.Servers =
      if st.lockHeld = true ∨ scanServers info st.Servers = true then st.Servers
      else st.Servers ++ [info] := by
  unfold mergeStep
  cases hl : st.lockHeld <;> cases hs : scanServers info st.Servers <;> simp [hs]

theorem unitOfWork_servers (fetched : Outcome ServerInfo) (st : Shared) :
    (unitOfWork fetched st).2.Servers = st.Servers ∨
      ∃ info, fetched = .ok info ∧ (unitOfWork fetched st).2.Servers = (mergeStep info st).2.Servers := by
  cases fetched with
  | panic p => left; rfl
  | error err => left; rfl
  | ok info =>
    by_cases h : info.CurrentPlayers = 0
    · left; simp [unitOfWork, h]
    · right; exact ⟨info, rfl, by simp [unitOfWork, h]⟩

theorem mergeStep_distinct (st : Shared) (info : ServerInfo)
    (h : DistinctKeys st.Servers) : DistinctKeys (mergeStep info st).2.Servers := by
  rw [mergeStep_servers]
  split
  · exact h
  · rename_i hn
    have hs : scanServers info st.Servers = false := by
      cases hsc : scanServers info st.Servers
      · rfl
      · exact absurd (Or.inr hsc) hn
    rw [scanServers_eq_false] at hs
    unfold DistinctKeys at *
    rw [List.pairwise_append]
    refine ⟨h, List.pairwise_singleton _ _, ?_⟩
    intro a ha b hb
    rw [List.mem_singleton] at hb
    subst hb
    intro hab
    exact hs a ha ⟨hab.1.symm, hab.2.symm⟩

theorem spawnAll_reachable (w : World) :
    ∀ (inputs : List Input) (st : Shared), Reachable st.Servers →
      Reachable (spawnAll w inputs st).2.Servers := by
  intro inputs
  induction inputs with
  | nil => intro st h; exact h
  | cons input rest ih =>
    intro st h
    have hstep := Reachable.step { st with wg := st.wg + 1 }
      (populateBeaconData w.GetServerReport w.GameTypes input) h
    unfold spawnAll
    simp only []
    split
    · rename_i heq
      rw [heq] at hstep
      exact hstep
    · rename_i heq
      rw [heq] at hstep
      exact ih _ hstep

theorem pollIteration_reachable (w : World) (servers : List ServerInfo)
    (h : Reachable servers) : Reachable (pollIteration w servers).2.1 := by
  unfold pollIteration
  split
  · exact h
  · exact h
  · rename_i parsed _
    have hs := spawnAll_reachable w parsed.inputs
      { Servers := servers, trace := Effect.httpGet :: parsed.logged } h
    simp only []
    split
    · rename_i heq; rw [heq] at hs; exact hs
    · rename_i heq; rw [heq] at hs
      split <;> exact hs

theorem pollServers_reachable :
    ∀ (worlds : List World) (servers : List ServerInfo), Reachable servers →
      Reachable (pollServers worlds servers).1 := by
  intro worlds
  induction worlds with
  | nil => intro servers h; exact h
  | cons w rest ih =>
    intro servers h
    have hi := pollIteration_reachable w servers h
    unfold pollServers
    split
    · rename_i heq; rw [heq] at hi; exact ih _ hi
    · rename_i heq; rw [heq] at hi; exact hi

/-- C1: the merge step keeps the entries of the store pairwise distinct in
`(IP, Port)`; so every store reachable from the empty store by units of work,
and the store after any number of iterations of `pollServers`, has no two
entries with the same `(IP, Port)`. -/
theorem distinctKeys_invariant :
    (∀ (st : Shared) (info : ServerInfo),
        DistinctKeys st.Servers → DistinctKeys (mergeStep info st).2.Servers) ∧
    (∀ servers : List ServerInfo, Reachable servers → DistinctKeys servers) ∧
    (∀ worlds : List World, DistinctKeys (pollServers worlds []).1) := by
  have hreach : ∀ servers : List ServerInfo, Reachable servers → DistinctKeys servers := by
    intro servers hr
    induction hr with
    | init => exact List.Pairwise.nil
    | step st fetched _ ih =>
      rcases unitOfWork_servers fetched st with h | ⟨info, _, h⟩
      · rw [h]; exact ih
      · rw [h]; exact mergeStep_distinct st info ih
  exact ⟨mergeStep_distinct, hreach,
    fun worlds => hreach _ (pollServers_reachable worlds [] Reachable.init)⟩

/-- Instance of C1: merging `otherEntry` into the store of `storedEntry`. -/
theorem distinctKeys_invariant_witness :
    DistinctKeys [storedEntry] ∧
      DistinctKeys (mergeStep otherEntry { Servers := [storedEntry], wg := 1 }).2.Servers :=
  ⟨by decide, distinctKeys_invariant.1 { Servers := [storedEntry], wg := 1 } otherEntry (by decide)⟩

/-- C2: a fetched entry with players whose `(IP, Port)` is already in the store
leaves the store as it was, whatever its other fields are; with the lock free
the unit of work runs to its return. -/
theorem retain_forever (st : Shared) (info : ServerInfo)
    (hplayers : info.CurrentPlayers ≠ 0)
    (hdup : ∃ s ∈ st.Servers, s.IP = info.IP ∧ s.Port = info.Port) :
    (unitOfWork (.ok info) st).2.Servers = st.Servers ∧
      (mergeStep info st).2.Servers = st.Servers ∧
      (st.lockHeld = false → (unitOfWork (.ok info) st).1 = .returned) := by
  have hscan : scanServers info st.Servers = true := by
    rw [scanServers_eq_true]
    obtain ⟨s, hs, h1, h2⟩ := hdup
    exact ⟨s, hs, h1.symm, h2.symm⟩
  have hmerge : (mergeStep info st).2.Servers = st.Servers := by
    rw [mergeStep_servers, hscan]; simp
  refine ⟨?_, hmerge, ?_⟩
  · simpa [unitOfWork, hplayers] using hmerge
  · intro hfree
    simp [unitOfWork, hplayers, mergeStep, hfree, hscan]

/-- Instance of C2: `refetchedEntry` differs from `storedEntry` in every field
but `IP` and `Port`, and the store stays `[storedEntry]`. -/
theorem retain_forever_witness :
    refetchedEntry.CurrentPlayers ≠ 0 ∧
      (unitOfWork (.ok refetchedEntry) { Servers := [storedEntry], wg := 1 }).2.Servers
        = [storedEntry] :=
  ⟨by decide,
    (retain_forever { Servers := [storedEntry], wg := 1 } refetchedEntry (by decide)
      ⟨storedEntry, by decide, by decide, by decide⟩).1⟩

/-- C3: a fetch that returned an error, or an entry with zero current players,
makes the unit of work return with the store as it was and the lock as it
was. -/
theorem discarded_fetch_keeps_store (st : Shared) (fetched : Outcome ServerInfo)
    (h : (∃ err, fetched = .error err) ∨
      (∃ info, fetched = .ok info ∧ info.CurrentPlayers = 0)) :
    (unitOfWork fetched st).1 = .returned ∧
      (unitOfWork fetched st).2.Servers = st.Servers ∧
      (unitOfWork fetched st).2.lockHeld = st.lockHeld := by
  rcases h with ⟨err, rfl⟩ | ⟨info, rfl, h0⟩
  · exact ⟨rfl, rfl, rfl⟩
  · simp [unitOfWork, h0]

/-- Instance of C3: the status query of the target times out. -/
theorem discarded_fetch_keeps_store_witness :
    (unitOfWork
        (populateBeaconData (fun _ _ => .error "i/o timeout") [] { IP := lit "10.0.0.2", Port := 7777 })
        { Servers := [storedEntry], wg := 1 }).2.Servers = [storedEntry] :=
  (discarded_fetch_keeps_store { Servers := [storedEntry], wg := 1 }
    (populateBeaconData (fun _ _ => .error "i/o timeout") [] { IP := lit "10.0.0.2", Port := 7777 })
    (Or.inl ⟨"i/o timeout", rfl⟩)).2.1

/-- C4, evaluated: with the lock free, a fetched duplicate makes the unit of
work return with the lock held (line 93 returns before line 97 unlocks), and
the next unit of work with players then waits in `lock.Lock()`, so that the
iteration of `duplicateWorld` never leaves `wg.Wait()`; on the three other
exits the lock is free. -/
theorem duplicate_exit_keeps_lock :
    unitOfWork (.ok refetchedEntry) { Servers := [storedEntry], lockHeld := false, wg := 2 }
        = (.returned, { Servers := [storedEntry], lockHeld := true, wg := 1 }) ∧
      (unitOfWork (.ok otherEntry) { Servers := [storedEntry], lockHeld := true, wg := 1 }).1
        = .blocked ∧
      (pollIteration duplicateWorld []).1 = .deadlock ∧
      (unitOfWork (.ok otherEntry) { Servers := [storedEntry], lockHeld := false, wg := 1 }).2.lockHeld
        = false ∧
      (unitOfWork (.ok { storedEntry with CurrentPlayers := 0 })
        { Servers := [storedEntry], lockHeld := false, wg := 1 }).2.lockHeld = false ∧
      (unitOfWork (.error "i/o timeout")
        { Servers := [storedEntry], lockHeld := false, wg := 1 }).2.lockHeld = false := by
  refine ⟨by decide, by decide, by decide, by decide, by decide, by decide⟩

theorem Split_ne_nil (s : GoString) (sep : UInt8) : Split s sep ≠ [] := by
  cases s with
  | nil => simp [Split]
  | cons c rest =>
    unfold Split
    split
    · simp
    · split <;> simp

theorem index_eq_ok {α : Type} {xs : List α} {i : Nat} (h : i < xs.length) :
    index xs i = .ok xs[i] := by
  simp [index, List.getElem?_eq_getElem h]

theorem signedValue_ne_panic (negative : Bool) (digits : GoString) (p : Panic) :
    signedValue negative digits ≠ .panic p := by
  unfold signedValue
  cases digitsValue digits 0 <;> simp only [] <;> split_ifs <;> simp

theorem Atoi_ne_panic (s : GoString) (p : Panic) : Atoi s ≠ .panic p := by
  cases s with
  | nil => simp [Atoi]
  | cons c rest =>
    simp only [Atoi]
    split_ifs <;> exact signedValue_ne_panic _ _ p

theorem hostPortsLoop_spec (lines : List GoString) :
    ∀ (count i : Nat) (st : ParseState), i + count = lines.length →
      (∀ line ∈ lines.drop i, 3 ≤ (Split line 44).length) →
      ∃ logged, forLoop (hostPortsBody lines) count i st =
        .ok { inputs := st.inputs ++ (lines.drop i).filterMap lineTarget, logged := logged } := by
  intro count
  induction count with
  | zero =>
    intro i st hi _
    have : lines.drop i = [] := List.drop_eq_nil_of_le (by omega)
    exact ⟨st.logged, by simp [forLoop, this]⟩
  | succ count ih =>
    intro i st hi hfields
    have hlt : i < lines.length := by omega
    have hdrop : lines.drop i = lines[i] :: lines.drop (i + 1) := List.drop_eq_getElem_cons hlt
    have h3 : 3 ≤ (Split lines[i] 44).length := hfields _ (by rw [hdrop]; exact List.mem_cons_self _ _)
    have hrest : ∀ line ∈ lines.drop (i + 1), 3 ≤ (Split line 44).length := by
      intro line hl
      exact hfields line (by rw [hdrop]; exact List.mem_cons_of_mem _ hl)
    have h1 : (1 : Nat) < (Split lines[i] 44).length := by omega
    have h2 : (2 : Nat) < (Split lines[i] 44).length := by omega
    have hline : lineTarget lines[i] =
        match Atoi (Split lines[i] 44)[2] with
        | .ok port => some { IP := (Split lines[i] 44)[1], Port := port }
        | _ => none := by
      simp [lineTarget, List.getElem?_eq_getElem h1, List.getElem?_eq_getElem h2]
    cases hat : Atoi (Split lines[i] 44)[2] with
    | panic p => exact absurd hat (Atoi_ne_panic _ p)
    | error err =>
      have hbody : hostPortsBody lines i st =
          .ok { st with logged := st.logged ++ [Effect.log ("atoi error: " ++ err)] } := by
        simp [hostPortsBody, index_eq_ok hlt, index_eq_ok h1, index_eq_ok h2, hat]
      obtain ⟨logged, hl⟩ := ih (i + 1)
        { st with logged := st.logged ++ [Effect.log ("atoi error: " ++ err)] } (by omega) hrest
      refine ⟨logged, ?_⟩
      rw [forLoop, hbody]
      simp only [hl, hdrop, List.filterMap_cons, hline, hat]
    | ok port =>
      have hbody : hostPortsBody lines i st =
          .ok { st with inputs := st.inputs ++ [{ IP := (Split lines[i] 44)[1], Port := port }] } := by
        simp [hostPortsBody, index_eq_ok hlt, index_eq_ok h1, index_eq_ok h2, hat]
      obtain ⟨logged, hl⟩ := ih (i + 1)
        { st with inputs := st.inputs ++ [{ IP := (Split lines[i] 44)[1], Port := port }] }
        (by omega) hrest
      refine ⟨logged, ?_⟩
      rw [forLoop, hbody]
      simp only [hl, hdrop, List.filterMap_cons, hline, hat, List.append_assoc, List.singleton_append]

theorem parseHostPorts_lines (b : GoString)
    (hfields : ∀ line ∈ (Split (TrimSuffix b [10]) 10).drop 1, 3 ≤ (Split line 44).length) :
    ∃ logged, parseHostPorts b = .ok { inputs := listedTargets b, logged := logged } := by
  have hne := Split_ne_nil (TrimSuffix b [10]) 10
  have hlen : 0 < (Split (TrimSuffix b [10]) 10).length := List.length_pos.mpr hne
  obtain ⟨logged, h⟩ := hostPortsLoop_spec (Split (TrimSuffix b [10]) 10)
    ((Split (TrimSuffix b [10]) 10).length - 1) 1 {} (by omega) hfields
  exact ⟨logged, by simpa [parseHostPorts, listedTargets] using h⟩

/-- C5, evaluated: on the listing body of the example the loop of
`getHostPorts` panics at the line `row`, whose `fields[1]` is out of range;
without that line the body gives the one target `10.0.0.1:7777`. -/
theorem parseHostPorts_example_panics :
    parseHostPorts (lit "header\nrow\nsrv1,10.0.0.1,7777\nsrv2,10.0.0.2,abc\n")
        = .panic (.indexOutOfRange 1 1) ∧
      parseHostPorts (lit "header\nsrv1,10.0.0.1,7777\nsrv2,10.0.0.2,abc\n")
        = .ok { inputs := [{ IP := lit "10.0.0.1", Port := 7777 }],
                logged := [.log "atoi error: invalid syntax"] } := by
  refine ⟨by decide, by decide⟩

theorem rotationPairs_length (report : Report) :
    (rotationPairs report).length = limiter report := by
  unfold rotationPairs limiter
  rw [List.length_zipWith]
  split <;> omega

theorem mapsLoop_spec (report : Report) :
    ∀ (count i : Nat) (maps : List Map), i + count = limiter report →
      forLoop (mapsBody report) count i maps = .ok (maps ++ (rotationPairs report).drop i) := by
  intro count
  induction count with
  | zero =>
    intro i maps hi
    have : (rotationPairs report).drop i = [] :=
      List.drop_eq_nil_of_le (by rw [rotationPairs_length]; omega)
    simp [forLoop, this]
  | succ count ih =>
    intro i maps hi
    have hlen := rotationPairs_length report
    have hlt : i < (rotationPairs report).length := by omega
    have hlim : limiter report ≤ report.MapRotation.length ∧
        limiter report ≤ report.ModeRotation.length := by
      unfold limiter; split <;> omega
    have h1 : i < report.MapRotation.length := by omega
    have h2 : i < report.ModeRotation.length := by omega
    have hget : (rotationPairs report)[i] =
        { Name := report.MapRotation[i], Mode := mapIndex FriendlyGameModes report.ModeRotation[i] } := by
      simp [rotationPairs]
    have hbody : mapsBody report i maps = .ok (maps ++ [(rotationPairs report)[i]]) := by
      simp [mapsBody, index_eq_ok h1, index_eq_ok h2, hget]
    rw [forLoop, hbody]
    simp only [ih (i + 1) _ (by omega), List.drop_eq_getElem_cons hlt, List.append_assoc,
      List.singleton_append]

theorem buildMaps_eq (report : Report) : buildMaps report = .ok (rotationPairs report) := by
  simpa [buildMaps] using mapsLoop_spec report (limiter report) 0 [] (by omega)

theorem applySettings_Maps (GameTypes : List (GoString × GoString)) (report : Report)
    (info : ServerInfo) : (applySettings GameTypes report info).Maps = info.Maps := by
  unfold applySettings
  split <;> rfl

theorem mapReport_Maps (GameTypes : List (GoString × GoString)) (report : Report)
    (info : ServerInfo) (h : mapReport GameTypes report = .ok info) :
    info.Maps = rotationPairs report := by
  unfold mapReport at h
  rw [buildMaps_eq] at h
  cases hp : buildPlayers report with
  | panic p => rw [hp] at h; cases h
  | error err => rw [hp] at h; cases h
  | ok players =>
    rw [hp] at h
    simp only [Outcome.ok.injEq] at h
    rw [← h, applySettings_Maps]

/-- C10: the rotation loop of `populateBeaconData` never indexes out of range
and builds a sequence as long as the shorter of `MapRotation` and
`ModeRotation`, whose entry `i` has the name `MapRotation[i]` and the display
name of `ModeRotation[i]` as mode; it is the `Maps` of every `ServerInfo` the
mapping returns, and three maps with two modes give two entries. -/
theorem buildMaps_spec (report : Report) :
    ∃ maps : List Map, buildMaps report = .ok maps ∧
      maps.length = min report.MapRotation.length report.ModeRotation.length ∧
      (∀ i : Nat, i < min report.MapRotation.length report.ModeRotation.length →
        ∃ name mode, report.MapRotation[i]? = some name ∧ report.ModeRotation[i]? = some mode ∧
          maps[i]? = some { Name := name, Mode := mapIndex FriendlyGameModes mode }) ∧
      (∀ GameTypes info, mapReport GameTypes report = .ok info → info.Maps = maps) ∧
      (report.MapRotation.length = 3 → report.ModeRotation.length = 2 → maps.length = 2) := by
  have hlen : (rotationPairs report).length =
      min report.MapRotation.length report.ModeRotation.length := by
    simp [rotationPairs]
  refine ⟨rotationPairs report, buildMaps_eq report, hlen, ?_, ?_, ?_⟩
  · intro i hi
    have h1 : i < report.MapRotation.length := by omega
    have h2 : i < report.ModeRotation.length := by omega
    refine ⟨report.MapRotation[i], report.ModeRotation[i], List.getElem?_eq_getElem h1,
      List.getElem?_eq_getElem h2, ?_⟩
    rw [List.getElem?_eq_getElem (by omega)]
    simp [rotationPairs]
  · intro GameTypes info h
    exact mapReport_Maps GameTypes report info h
  · intro h3 h2
    rw [hlen, h3, h2]
    rfl

/-- Instance of C10: three rotation maps and two rotation modes give the two
entries `Garage`, `Mission` and `Bank`, `Terrorist Hunt`. -/
theorem buildMaps_spec_witness :
    buildMaps unevenRotationReport =
      .ok [{ Name := lit "Garage", Mode := lit "Mission" },
           { Name := lit "Bank", Mode := lit "Terrorist Hunt" }] ∧
    ∃ maps : List Map, buildMaps unevenRotationReport = .ok maps ∧ maps.length = 2 :=
  ⟨by decide,
    (buildMaps_spec unevenRotationReport).elim fun maps h =>
      ⟨maps, h.1, h.2.2.2.2 (by decide) (by decide)⟩⟩

/-- C7, evaluated: a report with a player name and no kill count makes the
player loop of `populateBeaconData` panic at `ConnectedPlayerKills[0]`,
whatever the classifier table is, and the panic ends the iteration of
`pollServers` that fetched the report. -/
theorem mapReport_short_kills_panics :
    (∀ GameTypes : List (GoString × GoString),
        mapReport GameTypes shortKillsReport = .panic (.indexOutOfRange 0 0)) ∧
      (pollIteration shortKillsWorld []).1 = .crashed (.indexOutOfRange 0 0) := by
  refine ⟨fun _ => rfl, by decide⟩

/-- C8, evaluated: for a report in the bomb mode `RGM_BombAdvMode`, classified
`adv`, with a bomb timer of 45, the `ServerInfo` built has the display name
`Bomb` and a `PVPSettings.BombTimer` of zero, the other settings copied: line
175 compares the raw identifier with the display name. -/
theorem bomb_mode_bombTimer_zero :
    mapIndex sampleGameTypes bombReport.CurrentMode = lit "adv" ∧
      bombReport.BombTimer = 45 ∧
      (∃ info, mapReport sampleGameTypes bombReport = .ok info ∧
        info.GameMode = lit "Bomb" ∧
        info.PVPSettings =
          { AutoTeamBalance := true, BombTimer := 0, FriendlyFire := false,
            RoundsPerMatch := 10, TimePerRound := 240, TimeBetweenRounds := 30 }) := by
  refine ⟨by decide, by decide, ?_⟩
  exact ⟨_, rfl, by decide, by decide⟩

/-- C9, evaluated: an iteration whose discovery fails has the effects
`http.Get`, `log.Println(err)` and nothing more, so the next `http.Get`
follows with no sleep in between; a successful iteration ends with the sleep of
30 seconds. -/
theorem failed_discovery_has_no_sleep :
    (∀ (err : GoError) (G : GoString → Int → Outcome Report) (T : List (GoString × GoString))
        (rest : List World) (servers : List ServerInfo),
        pollServers ({ listing := .error err, GetServerReport := G, GameTypes := T } :: rest) servers
          = ((pollServers rest servers).1,
             [Effect.httpGet, Effect.log err] ++ (pollServers rest servers).2)) ∧
      (pollServers [failingWorld, failingWorld] []).2 =
        [.httpGet, .log "connection refused", .httpGet, .log "connection refused"] ∧
      (pollServers [emptyListingWorld] []).2 =
        [.httpGet, .log "server info updated", .sleep 30] := by
  refine ⟨fun _ _ _ _ _ => rfl, by decide, by decide⟩

theorem Split_of_not_mem (sep : UInt8) :
    ∀ piece : GoString, sep ∉ piece → Split piece sep = [piece] := by
  intro piece
  induction piece with
  | nil => intro _; rfl
  | cons c cs ih =>
    intro h
    have hc : c ≠ sep := fun e => h (e ▸ List.mem_cons_self _ _)
    have hcs : sep ∉ cs := fun m => h (List.mem_cons_of_mem _ m)
    simp [Split, hc, ih hcs]

theorem Split_append_sep (sep : UInt8) (tail : GoString) :
    ∀ piece : GoString, sep ∉ piece →
      Split (piece ++ sep :: tail) sep = piece :: Split tail sep := by
  intro piece
  induction piece with
  | nil => intro _; simp [Split]
  | cons c cs ih =>
    intro h
    have hc : c ≠ sep := fun e => h (e ▸ List.mem_cons_self _ _)
    have hcs : sep ∉ cs := fun m => h (List.mem_cons_of_mem _ m)
    simp [Split, hc, ih hcs]

theorem Split_joinWith (sep : UInt8) :
    ∀ (piece : GoString) (rest : List GoString), (∀ p ∈ piece :: rest, sep ∉ p) →
      Split (joinWith sep (piece :: rest)) sep = piece :: rest := by
  intro piece rest
  induction rest generalizing piece with
  | nil => intro h; exact Split_of_not_mem sep piece (h piece (List.mem_cons_self _ _))
  | cons next rest ih =>
    intro h
    rw [joinWith, Split_append_sep sep _ piece (h piece (List.mem_cons_self _ _)),
      ih next (fun p hp => h p (List.mem_cons_of_mem _ hp))]

theorem decimalDigits_eq : decimalDigits = [48, 49, 50, 51, 52, 53, 54, 55, 56, 57] := by
  decide

theorem isDecimalDigit_iff (c : UInt8) :
    isDecimalDigit c = true ↔ 48 ≤ c.toNat ∧ c.toNat ≤ 57 := by
  constructor
  · intro h
    simp only [isDecimalDigit, decimalDigits_eq, List.contains_cons, List.contains_nil,
      Bool.or_false, Bool.or_eq_true, beq_iff_eq] at h
    rcases h with h | h | h | h | h | h | h | h | h | h <;> subst h <;> decide
  · rintro ⟨h1, h2⟩
    obtain ⟨⟨n, hn⟩⟩ := c
    change 48 ≤ n at h1
    change n ≤ 57 at h2
    interval_cases n <;> rfl

theorem digitValue_eq (c : UInt8) (h : isDecimalDigit c = true) :
    digitValue c = c.toNat - 48 := by
  simp only [isDecimalDigit, decimalDigits_eq, List.contains_cons, List.contains_nil,
    Bool.or_false, Bool.or_eq_true, beq_iff_eq] at h
  rcases h with h | h | h | h | h | h | h | h | h | h <;> subst h <;> decide

theorem decimalValue_cons (c : UInt8) (cs : GoString) :
    decimalValue (c :: cs) = decimalValue cs + 10 ^ cs.length * digitValue c := by
  simp [decimalValue, Nat.ofDigits_append, Nat.ofDigits_singleton]

theorem digitsValue_spec :
    ∀ (ds : GoString) (acc : Nat), digitsValue ds acc =
      if ds.all isDecimalDigit = true then some (acc * 10 ^ ds.length + decimalValue ds)
      else none := by
  intro ds
  induction ds with
  | nil => intro acc; simp [digitsValue, decimalValue]
  | cons c cs ih =>
    intro acc
    by_cases hd : isDecimalDigit c = true
    · have hr := (isDecimalDigit_iff c).mp hd
      rw [digitsValue, if_pos hr, ih, decimalValue_cons, digitValue_eq c hd]
      simp only [List.all_cons, hd, Bool.true_and, List.length_cons]
      split
      · congr 1; ring
      · rfl
    · have hr : ¬ (48 ≤ c.toNat ∧ c.toNat ≤ 57) := fun h => hd ((isDecimalDigit_iff c).mpr h)
      rw [digitsValue, if_neg hr]
      simp [hd]

theorem signedValue_eq_ok_iff (negative : Bool) (ds : GoString) (v : Int) :
    signedValue negative ds = .ok v ↔
      ∃ n, unsignedDecimal? ds = some n ∧ v = (if negative = true then -(n : Int) else (n : Int)) ∧
        minInt ≤ v ∧ v ≤ maxInt := by
  unfold signedValue unsignedDecimal?
  by_cases hnil : ds = []
  · simp [hnil]
  · rw [if_neg hnil, digitsValue_spec]
    by_cases hall : ds.all isDecimalDigit = true
    · rw [if_pos hall, if_pos ⟨hnil, hall⟩]
      simp only [zero_mul, zero_add]
      by_cases hfit : minInt ≤ (if negative = true then -(decimalValue ds : Int) else (decimalValue ds : Int)) ∧
          (if negative = true then -(decimalValue ds : Int) else (decimalValue ds : Int)) ≤ maxInt
      · rw [if_pos hfit]
        constructor
        · intro h
          injection h with h
          subst h
          exact ⟨_, rfl, rfl, hfit⟩
        · rintro ⟨n, hn, hv, _⟩
          injection hn with hn
          subst hn
          rw [hv]
      · rw [if_neg hfit]
        constructor
        · intro h; cases h
        · rintro ⟨n, hn, hv, hfit2⟩
          injection hn with hn
          subst hn
          rw [hv] at hfit2
          exact absurd hfit2 hfit
    · rw [if_neg hall, if_neg (fun h => hall h.2)]
      constructor
      · intro h; cases h
      · rintro ⟨n, hn, _⟩; cases hn

theorem Atoi_eq_ok_iff (s : GoString) (v : Int) :
    Atoi s = .ok v ↔ decimalInt? s = some v ∧ minInt ≤ v ∧ v ≤ maxInt := by
  cases s with
  | nil =>
    constructor
    · intro h; cases h
    · rintro ⟨h, _⟩; cases h
  | cons c rest =>
    simp only [Atoi, decimalInt?]
    split_ifs <;> rw [signedValue_eq_ok_iff, Option.map_eq_some'] <;>
      · constructor
        · rintro ⟨n, hn, hv, hfit⟩
          exact ⟨⟨n, hn, by simp [hv]⟩, hfit⟩
        · rintro ⟨⟨n, hn, hv⟩, hfit⟩
          exact ⟨n, hn, by simp [← hv], hfit⟩

theorem mem_joinWith (sep c : UInt8) :
    ∀ pieces : List GoString, c ∈ joinWith sep pieces → c = sep ∨ ∃ p ∈ pieces, c ∈ p := by
  intro pieces
  induction pieces with
  | nil => intro h; cases h
  | cons piece rest ih =>
    cases rest with
    | nil => intro h; exact Or.inr ⟨piece, List.mem_cons_self _ _, h⟩
    | cons next rest =>
      intro h
      rw [joinWith, List.mem_append, List.mem_cons] at h
      rcases h with h | h | h
      · exact Or.inr ⟨piece, List.mem_cons_self _ _, h⟩
      · exact Or.inl h
      · rcases ih h with h | ⟨p, hp, hc⟩
        · exact Or.inl h
        · exact Or.inr ⟨p, List.mem_cons_of_mem _ hp, hc⟩

theorem joinWith_ne_nil (sep : UInt8) (piece : GoString) (rest : List GoString)
    (h : piece ≠ []) : joinWith sep (piece :: rest) ≠ [] := by
  cases rest with
  | nil => exact h
  | cons next rest => simp [joinWith, h]

theorem getLast?_joinWith (sep : UInt8) :
    ∀ (piece : GoString) (rest : List GoString), sep ∉ piece →
      (∀ p ∈ rest, p ≠ [] ∧ sep ∉ p) →
      (joinWith sep (piece :: rest)).getLast? ≠ some sep := by
  intro piece rest
  induction rest generalizing piece with
  | nil =>
    intro h _ hl
    exact h (List.mem_of_getLast?_eq_some hl)
  | cons next rest ih =>
    intro _ hrest hl
    have hnext := hrest next (List.mem_cons_self _ _)
    have hne := joinWith_ne_nil sep next rest hnext.1
    rw [joinWith, List.getLast?_append_of_ne_nil _ (List.cons_ne_nil _ _)] at hl
    obtain ⟨y, ys, hX⟩ := List.exists_cons_of_ne_nil hne
    rw [hX, List.getLast?_cons_cons, ← hX] at hl
    exact ih next hnext.2 (fun p hp => hrest p (List.mem_cons_of_mem _ hp)) hl

theorem TrimSuffix_append (s : GoString) (c : UInt8) : TrimSuffix (s ++ [c]) [c] = s := by
  have h : [c].isSuffixOf (s ++ [c]) = true := by
    rw [List.isSuffixOf_iff_suffix]
    exact List.suffix_append s [c]
  simp [TrimSuffix, h]

theorem TrimSuffix_of_getLast? (s : GoString) (c : UInt8) (h : s.getLast? ≠ some c) :
    TrimSuffix s [c] = s := by
  have hs : ¬ ([c].isSuffixOf s = true) := by
    rw [List.isSuffixOf_iff_suffix]
    rintro ⟨t, ht⟩
    exact h (by rw [← ht, List.getLast?_concat])
  simp [TrimSuffix, hs]

theorem lineTarget_joinWith (fields : List GoString)
    (h3 : 3 ≤ fields.length) (hsep : ∀ f ∈ fields, (44 : UInt8) ∉ f) :
    lineTarget (joinWith 44 fields) = recordTarget fields := by
  match fields, h3, hsep with
  | name :: host :: portField :: rest, _, hsep =>
    have hs : Split (joinWith 44 (name :: host :: portField :: rest)) 44 =
        name :: host :: portField :: rest := Split_joinWith 44 name _ hsep
    simp only [lineTarget, hs, recordTarget, List.getElem?_cons_succ, List.getElem?_cons_zero]
    cases hat : Atoi portField with
    | ok v =>
      obtain ⟨hd, hfit⟩ := (Atoi_eq_ok_iff portField v).mp hat
      simp [hd, hfit]
    | error err =>
      cases hd : decimalInt? portField with
      | none => rfl
      | some v =>
        by_cases hfit : minInt ≤ v ∧ v ≤ maxInt
        · have := (Atoi_eq_ok_iff portField v).mpr ⟨hd, hfit⟩
          rw [hat] at this; cases this
        · simp [hfit]
    | panic p => exact absurd hat (Atoi_ne_panic _ p)

theorem recordLine_props (r : List GoString)
    (h : 3 ≤ r.length ∧ ∀ f ∈ r, (44 : UInt8) ∉ f ∧ (10 : UInt8) ∉ f) :
    joinWith 44 r ≠ [] ∧ (10 : UInt8) ∉ joinWith 44 r := by
  constructor
  · match r, h with
    | a :: b :: rest, _ => simp [joinWith]
  · intro hm
    rcases mem_joinWith 44 10 r hm with h1 | ⟨f, hf, hc⟩
    · exact absurd h1 (by decide)
    · exact (h.2 f hf).2 hc

theorem listingBody_lines (header : GoString) (records : List (List GoString)) (trailing : Bool)
    (hheader : (10 : UInt8) ∉ header)
    (hrecords : ∀ r ∈ records, 3 ≤ r.length ∧ ∀ f ∈ r, (44 : UInt8) ∉ f ∧ (10 : UInt8) ∉ f) :
    Split (TrimSuffix (listingBody header records trailing) [10]) 10 =
      header :: records.map (joinWith 44) := by
  have hlines : ∀ p ∈ records.map (joinWith 44), p ≠ [] ∧ (10 : UInt8) ∉ p := by
    intro p hp
    rw [List.mem_map] at hp
    obtain ⟨r, hr, rfl⟩ := hp
    exact recordLine_props r (hrecords r hr)
  have htrim : TrimSuffix (listingBody header records trailing) [10] =
      joinWith 10 (header :: records.map (joinWith 44)) := by
    cases trailing with
    | true => exact TrimSuffix_append _ 10
    | false =>
      simp only [listingBody, Bool.false_eq_true, if_false, List.append_nil]
      exact TrimSuffix_of_getLast? _ 10 (getLast?_joinWith 10 header _ hheader hlines)
  rw [htrim]
  apply Split_joinWith
  intro p hp
  rcases List.mem_cons.mp hp with rfl | hp
  · exact hheader
  · exact (hlines p hp).2

/-- C6, amended: on a listing body made of a header line and of records of at
least three comma-separated fields each, with or without a newline at the end,
the record-parsing part of `getHostPorts` returns, in record order, one target
for each record whose third field is a decimal numeral (an optional sign, then
digits) with a value that fits a 64-bit `int`, the second field as `IP` and
that value as `Port`; the other records and the header give no target and
stop nothing.  By `listingBody_of_body` these are all the bodies whose lines
after the first have three fields or more. -/
theorem parseHostPorts_targets (header : GoString) (records : List (List GoString))
    (trailing : Bool) (hheader : (10 : UInt8) ∉ header)
    (hrecords : ∀ r ∈ records, 3 ≤ r.length ∧ ∀ f ∈ r, (44 : UInt8) ∉ f ∧ (10 : UInt8) ∉ f) :
    ∃ logged, parseHostPorts (listingBody header records trailing) =
      .ok { inputs := records.filterMap recordTarget, logged := logged } := by
  have hlines := listingBody_lines header records trailing hheader hrecords
  have hfields : ∀ line ∈ (Split (TrimSuffix (listingBody header records trailing) [10]) 10).drop 1,
      3 ≤ (Split line 44).length := by
    intro line hl
    rw [hlines, List.drop_one, List.tail_cons, List.mem_map] at hl
    obtain ⟨r, hr, rfl⟩ := hl
    have h := hrecords r hr
    match r, h with
    | a :: rest, h =>
      rw [Split_joinWith 44 a rest (fun f hf => (h.2 f hf).1)]
      exact h.1
  obtain ⟨logged, hp⟩ := parseHostPorts_lines (listingBody header records trailing) hfields
  refine ⟨logged, ?_⟩
  rw [hp, listedTargets, hlines, List.drop_one, List.tail_cons, List.filterMap_map]
  congr 2
  apply List.filterMap_congr
  intro r hr
  exact lineTarget_joinWith r (hrecords r hr).1 (fun f hf => ((hrecords r hr).2 f hf).1)

/-- Instance of C6: the listing of a header and two records, the second with
a port that is no number, gives the one target `10.0.0.1:7777`. -/
theorem parseHostPorts_targets_witness :
    ∃ logged, parseHostPorts (lit "header\nsrv1,10.0.0.1,7777\nsrv2,10.0.0.2,abc\n") =
      .ok { inputs := [{ IP := lit "10.0.0.1", Port := 7777 }], logged := logged } :=
  parseHostPorts_targets (lit "header")
    [[lit "srv1", lit "10.0.0.1", lit "7777"], [lit "srv2", lit "10.0.0.2", lit "abc"]] true
    (by decide) (by decide)

/-- C6 as first stated fails: the one record of this body has three fields
and its third field is the decimal integer 99999999999999999999, yet the
record gives no target, as the value does not fit a 64-bit `int`. -/
theorem parseHostPorts_long_port_counterexample :
    lit "header\nsrv1,10.0.0.1,99999999999999999999\n" =
        listingBody (lit "header") [[lit "srv1", lit "10.0.0.1", lit "99999999999999999999"]] true ∧
      (∀ line ∈ (Split (TrimSuffix (lit "header\nsrv1,10.0.0.1,99999999999999999999\n") [10]) 10).drop 1,
        3 ≤ (Split line 44).length) ∧
      decimalInt? (lit "99999999999999999999") = some 99999999999999999999 ∧
      parseHostPorts (lit "header\nsrv1,10.0.0.1,99999999999999999999\n") =
        .ok { inputs := [], logged := [.log "atoi error: value out of range"] } := by
  refine ⟨by decide, by decide, by decide, by decide⟩

theorem joinWith_cons_cons (sep c : UInt8) (piece : GoString) (rest : List GoString) :
    joinWith sep ((c :: piece) :: rest) = c :: joinWith sep (piece :: rest) := by
  cases rest <;> rfl

theorem Split_cases (sep c : UInt8) (rest : GoString) :
    ∃ piece pieces, Split rest sep = piece :: pieces ∧
      Split (c :: rest) sep = if c = sep then [] :: piece :: pieces else (c :: piece) :: pieces := by
  obtain ⟨piece, pieces, h⟩ := List.exists_cons_of_ne_nil (Split_ne_nil rest sep)
  refine ⟨piece, pieces, h, ?_⟩
  rw [Split, h]

theorem joinWith_Split (sep : UInt8) : ∀ s : GoString, joinWith sep (Split s sep) = s := by
  intro s
  induction s with
  | nil => rfl
  | cons c rest ih =>
    obtain ⟨piece, pieces, h, hs⟩ := Split_cases sep c rest
    rw [hs]
    rw [h] at ih
    split
    · rename_i hc
      rw [joinWith, ih, hc]; rfl
    · rw [joinWith_cons_cons, ih]

theorem Split_pieces (sep : UInt8) :
    ∀ s : GoString, ∀ p ∈ Split s sep, sep ∉ p ∧ ∀ c ∈ p, c ∈ s := by
  intro s
  induction s with
  | nil =>
    intro p hp
    simp only [Split, List.mem_singleton] at hp
    subst hp
    exact ⟨List.not_mem_nil _, fun c hc => hc⟩
  | cons c rest ih =>
    obtain ⟨piece, pieces, h, hs⟩ := Split_cases sep c rest
    rw [h] at ih
    intro p hp
    rw [hs] at hp
    split at hp
    · rcases List.mem_cons.mp hp with rfl | hp
      · exact ⟨List.not_mem_nil _, fun c hc => absurd hc (List.not_mem_nil _)⟩
      · exact ⟨(ih p hp).1, fun d hd => List.mem_cons_of_mem _ ((ih p hp).2 d hd)⟩
    · rename_i hc
      rcases List.mem_cons.mp hp with rfl | hp
      · have hpiece := ih piece (List.mem_cons_self _ _)
        constructor
        · intro hm
          rcases List.mem_cons.mp hm with e | hm
          · exact hc e.symm
          · exact hpiece.1 hm
        · intro d hd
          rcases List.mem_cons.mp hd with rfl | hd
          · exact List.mem_cons_self _ _
          · exact List.mem_cons_of_mem _ (hpiece.2 d hd)
      · have hq := ih p (List.mem_cons_of_mem _ hp)
        exact ⟨hq.1, fun d hd => List.mem_cons_of_mem _ (hq.2 d hd)⟩

theorem TrimSuffix_cases (s : GoString) (c : UInt8) :
    s = TrimSuffix s [c] ∨ s = TrimSuffix s [c] ++ [c] := by
  by_cases h : [c].isSuffixOf s = true
  · right
    have hs := h
    rw [List.isSuffixOf_iff_suffix] at hs
    obtain ⟨t, rfl⟩ := hs
    rw [TrimSuffix_append]
  · left
    simp [TrimSuffix, h]

theorem listingBody_of_body (b : GoString)
    (hfields : ∀ line ∈ (Split (TrimSuffix b [10]) 10).drop 1, 3 ≤ (Split line 44).length) :
    ∃ header records trailing, b = listingBody header records trailing ∧
      (10 : UInt8) ∉ header ∧
      ∀ r ∈ records, 3 ≤ r.length ∧ ∀ f ∈ r, (44 : UInt8) ∉ f ∧ (10 : UInt8) ∉ f := by
  obtain ⟨header, lines, hsplit⟩ :=
    List.exists_cons_of_ne_nil (Split_ne_nil (TrimSuffix b [10]) 10)
  have hpieces := Split_pieces 10 (TrimSuffix b [10])
  rw [hsplit] at hpieces hfields
  have hjoin := joinWith_Split 10 (TrimSuffix b [10])
  rw [hsplit] at hjoin
  have hmap : (lines.map (fun line => Split line 44)).map (joinWith 44) = lines := by
    rw [List.map_map]
    conv_rhs => rw [← List.map_id lines]
    apply List.map_congr_left
    intro line _
    exact joinWith_Split 44 line
  have hbody : ∀ trailing : Bool,
      listingBody header (lines.map (fun line => Split line 44)) trailing =
        TrimSuffix b [10] ++ (if trailing then [10] else []) := by
    intro trailing
    rw [listingBody, hmap, hjoin]
  refine ⟨header, lines.map (fun line => Split line 44),
    (if b = TrimSuffix b [10] then false else true), ?_, ?_, ?_⟩
  · rw [hbody]
    by_cases hb : b = TrimSuffix b [10]
    · rw [if_pos hb]
      simpa using hb
    · rcases TrimSuffix_cases b 10 with h | h
      · exact absurd h hb
      · rw [if_neg hb]
        simpa using h
  · exact (hpieces header (List.mem_cons_self _ _)).1
  · intro r hr
    rw [List.mem_map] at hr
    obtain ⟨line, hline, rfl⟩ := hr
    refine ⟨hfields line (by simpa using hline), ?_⟩
    intro f hf
    have hfp := Split_pieces 44 line f hf
    refine ⟨hfp.1, fun h10 => ?_⟩
    exact (hpieces line (List.mem_cons_of_mem _ hline)).1 (hfp.2 10 h10)

end OpenRVSStats
